import Mathlib

/-!
Verification development for the PokeChat-rag entity-resolution pipeline
(`chatbot-rag/scripts/chat_rag.py`).

The Python source is shallowly embedded: pure helpers become Lean functions,
the network (`requests.get`) becomes an explicit environment of fetch
outcomes, the Python `try ... except Exception: return None` wrapper becomes
an `Except Unit` computation whose error case collapses to `none`, and the
local JSON cache (a data file loaded at startup) becomes an explicit
parameter, since only its schema is visible in the source.

Strings are modelled over their character lists; `str.lower` /
`str.capitalize` / `string.punctuation` are modelled on the ASCII and
Latin-1 ranges, which cover every string the program manipulates.
-/

namespace PokeChat

/-! ## Python string primitives -/

/-- Membership in Python `string.punctuation`
(ASCII 33-47, 58-64, 91-96, 123-126). -/
def isPunctChar (c : Char) : Bool :=
  (33 ≤ c.toNat && c.toNat ≤ 47) || (58 ≤ c.toNat && c.toNat ≤ 64) ||
  (91 ≤ c.toNat && c.toNat ≤ 96) || (123 ≤ c.toNat && c.toNat ≤ 126)

/-- ASCII whitespace as recognised by `str.strip` / `str.split`. -/
def isSpaceChar (c : Char) : Bool :=
  c.toNat == 32 || (9 ≤ c.toNat && c.toNat ≤ 13)

/-- Python `str.lower`, restricted to the ASCII and Latin-1 letters the program
uses (A-Z, plus À-Þ except ×). -/
def pyCharLower (c : Char) : Char :=
  if (65 ≤ c.toNat ∧ c.toNat ≤ 90) ∨
     (192 ≤ c.toNat ∧ c.toNat ≤ 222 ∧ c.toNat ≠ 215) then
    Char.ofNat (c.toNat + 32)
  else c

/-- Python `str.upper` on a single character (ASCII and Latin-1 ranges). -/
def pyCharUpper (c : Char) : Char :=
  if (97 ≤ c.toNat ∧ c.toNat ≤ 122) ∨
     (224 ≤ c.toNat ∧ c.toNat ≤ 254 ∧ c.toNat ≠ 247) then
    Char.ofNat (c.toNat - 32)
  else c

/-- Python `str.lower`. -/
def pyLower (s : String) : String := ⟨s.data.map pyCharLower⟩

/-- Python `str.capitalize`: first character upper-cased, the rest
lower-cased. -/
def pyCapitalize (s : String) : String :=
  match s.data with
  | [] => ⟨[]⟩
  | c :: cs => ⟨pyCharUpper c :: cs.map pyCharLower⟩

/-- Python `str.strip()`: remove leading and trailing whitespace. -/
def pyStrip (s : String) : String :=
  ⟨((s.data.dropWhile isSpaceChar).reverse.dropWhile isSpaceChar).reverse⟩

/-- Python `str.split()` with no separator: split on whitespace runs,
dropping empty pieces.  `acc` holds the current word, reversed. -/
def pySplitWsAux : List Char → List Char → List String
  | [], acc => if acc.isEmpty then [] else [⟨acc.reverse⟩]
  | c :: cs, acc =>
    if isSpaceChar c then
      if acc.isEmpty then pySplitWsAux cs []
      else ⟨acc.reverse⟩ :: pySplitWsAux cs []
    else pySplitWsAux cs (c :: acc)

def pySplitWs (s : String) : List String := pySplitWsAux s.data []

/-- Render of a possibly-`None` integer inside a Python f-string. -/
def pyRepr : Option Int → String
  | some n => toString n
  | none => "None"

/-! ## Utility functions (`corrigir_capitalizacao`, `limpar_nome`) -/

/-- Source `corrigir_capitalizacao` (defined in the script, never called):
capitalize every whitespace token. -/
def corrigir_capitalizacao (texto : String) : String :=
  String.intercalate " " ((pySplitWs texto).map pyCapitalize)

/-- Source `limpar_nome`: strip punctuation characters then surrounding
whitespace. -/
def limpar_nome (nome : String) : String :=
  pyStrip ⟨nome.data.filter (fun c => !isPunctChar c)⟩

/-! ## `difflib.get_close_matches` (Ratcliff-Obershelp similarity)

`corrigir_nome_pokemon` calls `difflib.get_close_matches(word, names, n=1)`
(default cutoff 0.6).  We embed the stdlib algorithm: the ratio is
`2*M/(len(a)+len(b))` where `M` totals the sizes of the recursively chosen
longest matching blocks; among candidates passing the cutoff the best
`(ratio, string)` pair wins.  The model covers the regime where
`SequenceMatcher`'s `autojunk` heuristic is inert (strings shorter than 200
characters, true of every name the program handles). -/

/-- Length of the common prefix of two character lists. -/
def commonRun : List Char → List Char → Nat
  | a :: as, b :: bs => if a = b then commonRun as bs + 1 else 0
  | _, _ => 0

/-- All index pairs `(i, j)` with `i < m`, `j < n`, in lexicographic
order. -/
def allPairs (m n : Nat) : List (Nat × Nat) :=
  (List.range m).flatMap fun i => (List.range n).map fun j => (i, j)

/-- The run length starting at position `p` of `a` and `b`. -/
def crAt (a b : List Char) (p : Nat × Nat) : Nat :=
  commonRun (a.drop p.1) (b.drop p.2)

/-- One step of `find_longest_match`'s maximisation: a strictly longer
block replaces the current best, so the earliest maximal block is kept. -/
def lmStep (a b : List Char) (best : Nat × Nat × Nat) (p : Nat × Nat) :
    Nat × Nat × Nat :=
  if best.2.2 < crAt a b p then (p.1, p.2, crAt a b p) else best

/-- Model of `SequenceMatcher.find_longest_match` over the whole ranges (no junk):
the longest matching block `(i, j, size)`, earliest in `a` then in `b`. -/
def longestMatch (a b : List Char) : Nat × Nat × Nat :=
  (allPairs a.length b.length).foldl (lmStep a b) (0, 0, 0)

/-- Total size of the matching blocks (`sum(size for _, _, size in
get_matching_blocks())`), fuelled by the combined length, which always
suffices. -/
def matchTotalF : Nat → List Char → List Char → Nat
  | 0, _, _ => 0
  | fuel + 1, a, b =>
    if (longestMatch a b).2.2 = 0 then 0
    else
      matchTotalF fuel (a.take (longestMatch a b).1)
          (b.take (longestMatch a b).2.1) +
        (longestMatch a b).2.2 +
        matchTotalF fuel
          (a.drop ((longestMatch a b).1 + (longestMatch a b).2.2))
          (b.drop ((longestMatch a b).2.1 + (longestMatch a b).2.2))

def matchTotal (a b : List Char) : Nat :=
  matchTotalF (a.length + b.length) a b

/-- Model of `SequenceMatcher(a=x, b=word).ratio()` (via `mkRat`, so that the
kernel can evaluate it on concrete strings). -/
def razaoSim (x word : String) : ℚ :=
  let T := x.length + word.length
  if T = 0 then 1 else mkRat (2 * matchTotal x.data word.data) T

/-- One comparison step of `heapq.nlargest(1, ...)` / `max`: the candidate
replaces the current best exactly when its `(ratio, string)` pair is
strictly greater, so the first maximal element is kept. -/
def nlargestStep (word : String) (best : Option String) (x : String) :
    Option String :=
  match best with
  | none => some x
  | some b =>
    if razaoSim b word < razaoSim x word ∨
       (razaoSim b word = razaoSim x word ∧ b < x) then some x
    else some b

/-- The best scorer of `heapq.nlargest(1, [(ratio, x) for x ...])`. -/
def melhorTupla (word : String) (cands : List String) : Option String :=
  cands.foldl (nlargestStep word) none

/-- Model of `difflib.get_close_matches(word, possibilities, n=1, cutoff=0.6)`,
returning the single best match if any candidate reaches the cutoff. -/
def get_close_matches1 (word : String) (possibilities : List String) :
    Option String :=
  melhorTupla word
    (possibilities.filter fun x => decide (mkRat 3 5 ≤ razaoSim x word))

/-! ## Local cache and known-names index

`pokedex_gen1.json` is loaded at startup; only its schema is visible in the
source (`buscar_no_json`), so the cache contents are a parameter.  A cache
entry's stats use the Portuguese field names. -/

structure CachePoke where
  nome : String
  tipos : List String
  habilidades : List String
  altura : Option ℚ
  peso : Option ℚ
  stats : List (String × Int)
  descricao : Option String
  evolucao : Option (List String)
deriving DecidableEq, Repr

/-- The index `NOMES_VALIDOS = [p["nome"].lower() for p in cache_local]`. -/
def NOMES_VALIDOS (cache : List CachePoke) : List String :=
  cache.map fun p => pyLower p.nome

/-- The table `CORRECOES_API` of irregular API slugs. -/
def CORRECOES_API : List (String × String) :=
  [("nidoran(f)", "nidoran-f"), ("nidoran(m)", "nidoran-m"),
   ("mr. mime", "mr-mime"), ("farfetch\x27d", "farfetchd")]

/-- Source `corrigir_nome_pokemon`: fuzzy-correct against the known names;
fall back to the lower-cased input when nothing matches. -/
def corrigir_nome_pokemon (cache : List CachePoke) (nome_digitado : String) :
    String :=
  match get_close_matches1 (pyLower nome_digitado) (NOMES_VALIDOS cache) with
  | some sugestao => sugestao
  | none => pyLower nome_digitado

/-- Source `normalizar_nome_para_api` (builds the request slug; the slug only
feeds the URL, which the fetch environment abstracts). -/
def normalizar_nome_para_api (nome : String) : String :=
  let nome_limpo := pyStrip (pyLower nome)
  let nome_limpo :=
    match CORRECOES_API.find? (fun p => p.1 == nome_limpo) with
    | some p => p.2
    | none => nome_limpo
  ⟨(nome_limpo.data.map fun c => if c = ' ' then '-' else c).filter
    fun c => c ≠ '.' ∧ c.toNat ≠ 39⟩

/-! ## Canonical record -/

/-- A height/weight value: a number, or the cache's "N/A" placeholder. -/
inductive AltVal where
  | num (q : ℚ)
  | na
deriving DecidableEq, Repr

/-- Display rendering of a height/weight value.  Python renders these as
floats; the exact float formatting is display-only and abstracted to a
rational rendering here (no claim depends on it). -/
def rendAlt : AltVal → String
  | .num q => if q.den = 1 then toString q.num
              else toString q.num ++ "/" ++ toString q.den
  | .na => "N/A"

/-- The unified record shape produced by either data source.  `stats` is a
Python dict modelled as an insertion-ordered association list whose values
may be Python `None`. -/
structure Registro where
  nome : String
  tipos : List String
  habilidades : List String
  altura : AltVal
  peso : AltVal
  stats : List (String × Option Int)
  descricao : String
  evolucao : List String
  fonte : String
deriving DecidableEq, Repr

/-- Python `d[k]` on an association-list dict (last binding wins):
`KeyError` becomes `Except.error`. -/
def dictItem (l : List (String × Option Int)) (k : String) :
    Except Unit (Option Int) :=
  match l.reverse.find? (fun p => p.1 == k) with
  | some p => .ok p.2
  | none => .error ()

/-- Python `d.get(k, 0)` on the stats dict. -/
def dictGetD0 (l : List (String × Option Int)) (k : String) : Option Int :=
  match l.reverse.find? (fun p => p.1 == k) with
  | some p => p.2
  | none => some 0

/-- Keys of the stats dict, in insertion order. -/
def dictKeys (l : List (String × Option Int)) : List String :=
  (l.map Prod.fst).eraseDups

/-! ## Remote API environment

`requests.get` either raises (`exn`: timeout, network failure) or returns a
response with a status code and a body whose `.json()` may itself raise. -/

inductive HttpResult (α : Type) where
  | exn
  | resp (status : Nat) (body : Except Unit α)

/-- One `{"stat": {"name": ...}, "base_stat": ...}` element. -/
structure PokeStat where
  stat_name : String
  base_stat : Int
deriving DecidableEq, Repr

/-- Body of the primary `/pokemon/{slug}` response (fields the code reads;
`.get` defaults for absent keys are folded into the field types). -/
structure PokeData where
  stats : List PokeStat
  types : List String
  abilities : List String
  height : Option Int
  weight : Option Int
deriving DecidableEq, Repr

structure FlavorEntry where
  flavor_text : String
  language : String
deriving DecidableEq, Repr

/-- Body of the `/pokemon-species/{slug}` response.
`flavor_text_entries = none` models the key being absent (a `KeyError` on
access); `evolution_chain_present` models `"evolution_chain" in
species_data`. -/
structure SpeciesData where
  flavor_text_entries : Option (List FlavorEntry)
  evolution_chain_present : Bool
deriving DecidableEq, Repr

/-- A node of the evolution-chain tree. -/
inductive ChainNode where
  | mk (species : String) (evolves_to : List ChainNode)

def ChainNode.species : ChainNode → String
  | .mk s _ => s

def ChainNode.evolves_to : ChainNode → List ChainNode
  | .mk _ e => e

/-- Body of the chain fetch: `none` models a falsy JSON value (the
`if chain_data:` test), `some cd` a dict whose `"chain"` key may be
missing. -/
structure ChainData where
  chain : Option ChainNode

/-- Outcomes of the three fetches `buscar_na_pokeapi` can issue. -/
structure ApiEnv where
  poke : HttpResult PokeData
  species : HttpResult SpeciesData
  chainFetch : HttpResult (Option ChainData)

/-! ## Evolution-chain extraction -/

/- `extrair_evolucoes`: pre-order walk appending each capitalized species
name unless its lower-casing equals the corrected query name. -/
mutual
/-- Pre-order walk skipping the corrected query name. -/
def extrair_evolucoes (nome_corrigido : String) : ChainNode → List String
  | .mk sp evos =>
    (if pyLower (pyCapitalize sp) ≠ nome_corrigido then [pyCapitalize sp]
     else []) ++ extrairEvolucoesList nome_corrigido evos

def extrairEvolucoesList (nome_corrigido : String) :
    List ChainNode → List String
  | [] => []
  | c :: cs =>
    extrair_evolucoes nome_corrigido c ++
      extrairEvolucoesList nome_corrigido cs
end

/- Pre-order listing of every species name in a chain (the traversal order
of `extrair_evolucoes`, before the skip).  This is the specification-side
description the claim compares against. -/
mutual
/-- Pre-order species listing, specification side. -/
def preorderSpecies : ChainNode → List String
  | .mk sp evos => sp :: preorderSpeciesList evos

def preorderSpeciesList : List ChainNode → List String
  | [] => []
  | c :: cs => preorderSpecies c ++ preorderSpeciesList cs
end

/-- The `evolucao` field computed from a truthy chain body: the extracted
list, or the sentinel when it is empty (lines 148-162). -/
def evolucaoCampo (nome_corrigido : String) (root : ChainNode) :
    List String :=
  let evolucoes := extrair_evolucoes nome_corrigido root
  if evolucoes.isEmpty then ["Não evolui"] else evolucoes

/-- Python `entry["flavor_text"].replace(newline, space)`. -/
def replaceNl (s : String) : String :=
  ⟨s.data.map fun c => if c = '\n' then ' ' else c⟩

/-! ## `buscar_na_pokeapi` -/

/-- Body of the `try:` block.  `throw ()` marks any raised exception
(network error, JSON parse failure, `KeyError`, and the unbound local
`evolucao` when the species fetch is not a 200 — modelled by the
`Option (List String)` binding); `pure none` is the explicit
`return None`. -/
def buscarTry (env : ApiEnv) (cache : List CachePoke) (nome : String) :
    Except Unit (Option Registro) := do
  let nome_limpo := limpar_nome nome
  let nome_corrigido := corrigir_nome_pokemon cache nome_limpo
  let _nome_api := normalizar_nome_para_api nome_corrigido
  match env.poke with
  | .exn => throw ()
  | .resp status body =>
    if status ≠ 200 then pure none
    else
      match body with
      | .error _ => throw ()
      | .ok poke_data => do
        let stats : List (String × Option Int) :=
          poke_data.stats.map fun s => (s.stat_name, some s.base_stat)
        let descricao := "Descrição não disponível."
        let resultadoSpecies : String × Option (List String) ←
          match env.species with
          | .exn => throw ()
          | .resp sstatus sbody =>
            if sstatus = 200 then
              match sbody with
              | .error _ => throw ()
              | .ok species_data =>
                match species_data.flavor_text_entries with
                | none => throw ()
                | some entries => do
                  let descricao :=
                    match entries.find? (fun e => e.language == "en") with
                    | some entry => replaceNl entry.flavor_text
                    | none => "Descrição não encontrada."
                  let evolucao := ["Não evolui"]
                  if species_data.evolution_chain_present then
                    match env.chainFetch with
                    | .exn => throw ()
                    | .resp _ cbody =>
                      match cbody with
                      | .error _ => throw ()
                      | .ok chain_data =>
                        match chain_data with
                        | none => pure (descricao, some evolucao)
                        | some cd =>
                          match cd.chain with
                          | none => throw ()
                          | some root =>
                            pure (descricao,
                              some (evolucaoCampo nome_corrigido root))
                  else pure (descricao, some evolucao)
            else pure (descricao, none)
        match resultadoSpecies.2 with
        | none => throw ()
        | some evolucao =>
          pure (some {
            nome := pyCapitalize nome_corrigido
            tipos := poke_data.types.map pyCapitalize
            habilidades := poke_data.abilities.map pyCapitalize
            altura := .num ((poke_data.height.getD 0 : ℚ) / 10)
            peso := .num ((poke_data.weight.getD 0 : ℚ) / 10)
            stats := stats
            descricao := resultadoSpecies.1
            evolucao := evolucao
            fonte := "PokéAPI" })

/-- Source `buscar_na_pokeapi`: the `except Exception: return None` wrapper. -/
def buscar_na_pokeapi (env : ApiEnv) (cache : List CachePoke)
    (nome : String) : Option Registro :=
  match buscarTry env cache nome with
  | .ok r => r
  | .error _ => none

/-! ## `buscar_no_json` -/

/-- The canonical record built from a cache entry (lines 183-200):
Portuguese stat names remapped to the canonical keys. -/
def registroDoCache (p : CachePoke) : Registro where
  nome := p.nome
  tipos := p.tipos
  habilidades := p.habilidades
  altura := match p.altura with | some q => .num q | none => .na
  peso := match p.peso with | some q => .num q | none => .na
  stats :=
    [("hp", (p.stats.find? (fun s => s.1 == "hp")).map Prod.snd),
     ("attack", (p.stats.find? (fun s => s.1 == "ataque")).map Prod.snd),
     ("defense", (p.stats.find? (fun s => s.1 == "defesa")).map Prod.snd),
     ("special-attack",
       (p.stats.find? (fun s => s.1 == "ataque_especial")).map Prod.snd),
     ("special-defense",
       (p.stats.find? (fun s => s.1 == "defesa_especial")).map Prod.snd),
     ("speed", (p.stats.find? (fun s => s.1 == "velocidade")).map Prod.snd)]
  descricao := p.descricao.getD "Descrição não disponível."
  evolucao := p.evolucao.getD ["Não evolui"]
  fonte := "Cache Local"

/-- Source `buscar_no_json`: exact lookup of the fuzzy-corrected cleaned name
against the lower-cased cache names; first hit wins. -/
def buscar_no_json (cache : List CachePoke) (nome : String) :
    Option Registro :=
  let nome_corrigido := corrigir_nome_pokemon cache (limpar_nome nome)
  match cache.find? (fun p => pyLower p.nome == nome_corrigido) with
  | some p => some (registroDoCache p)
  | none => none

/-! ## Type-effectiveness table and `calcular_fraquezas` -/

def tabela_tipos : List (String × List String) :=
  [("Fire", ["Water", "Rock", "Ground"]),
   ("Water", ["Electric", "Grass"]),
   ("Electric", ["Ground"]),
   ("Grass", ["Fire", "Ice", "Poison", "Flying", "Bug"]),
   ("Ice", ["Fire", "Fighting", "Rock", "Steel"]),
   ("Fighting", ["Flying", "Psychic", "Fairy"]),
   ("Poison", ["Ground", "Psychic"]),
   ("Ground", ["Water", "Grass", "Ice"]),
   ("Flying", ["Electric", "Ice", "Rock"]),
   ("Psychic", ["Bug", "Ghost", "Dark"]),
   ("Bug", ["Fire", "Flying", "Rock"]),
   ("Rock", ["Water", "Grass", "Fighting", "Ground", "Steel"]),
   ("Ghost", ["Ghost", "Dark"]),
   ("Dragon", ["Ice", "Dragon", "Fairy"]),
   ("Dark", ["Fighting", "Bug", "Fairy"]),
   ("Steel", ["Fire", "Fighting", "Ground"]),
   ("Fairy", ["Poison", "Steel"])]

/-- Lookup `tabela_tipos[tipo]` as a finite set (dict values are Python sets). -/
def tabelaLookup (tipo : String) : Finset String :=
  match tabela_tipos.find? (fun p => p.1 == tipo) with
  | some p => p.2.toFinset
  | none => ∅

/-- Source `calcular_fraquezas`: union the counter-type sets of the recognised
input types, then `sorted(...)`. -/
def calcular_fraquezas (tipos : List String) : List String :=
  (tipos.foldl (fun fraquezas tipo =>
      if (tabela_tipos.find? (fun p => p.1 == tipo)).isSome then
        fraquezas ∪ tabelaLookup tipo
      else fraquezas) ∅).sort (· ≤ ·)

/-! ## Conversational memory -/

/-- Class `MemoriaConversa`: `historico` is a `deque(maxlen=3)`,
`ultimo` is `ultimo_pokemon`. -/
structure Memoria where
  historico : List (String × String)
  ultimo : Option String
deriving DecidableEq, Repr

/-- Python `deque(maxlen=3).append`: keep the last three entries. -/
def adicionar (h : List (String × String)) (e : String × String) :
    List (String × String) :=
  let h' := h ++ [e]
  h'.drop (h'.length - 3)

/-- Method `MemoriaConversa.contexto`. -/
def contexto (m : Memoria) : String :=
  String.intercalate "\n"
    (m.historico.map fun qa => "Q: " ++ qa.1 ++ "\nA: " ++ qa.2)

/-! ## Intent detection (`detectar_intencao`) -/

/-- Python `\w` over the character ranges the keyword sets use
(ASCII alphanumerics, underscore, Latin-1 letters). -/
def isWordChar (c : Char) : Bool :=
  c.isAlphanum || c == '_' ||
  (192 ≤ c.toNat && c.toNat ≤ 255 && c.toNat ≠ 215 && c.toNat ≠ 247)

/-- True when no word character sits at position `i` (off-string counts as
a boundary). -/
def nonWordAt (s : List Char) (i : Nat) : Bool :=
  match s[i]? with
  | some c => !isWordChar c
  | none => true

/-- Model of a word-bounded regex search for a literal `lit` beginning and
ending in word characters: some occurrence of `lit` delimited by word
boundaries. -/
def temPalavra (s lit : String) : Bool :=
  (List.range (s.length + 1)).any fun i =>
    decide ((s.data.drop i).take lit.length = lit.data) &&
    (i == 0 || nonWordAt s.data (i - 1)) &&
    nonWordAt s.data (i + lit.length)

/-- One keyword-set test: each optional-suffix pattern is expanded into its
literal alternatives. -/
def temAlguma (s : String) (lits : List String) : Bool :=
  lits.any (temPalavra s)

/-- Source `detectar_intencao`: ordered first-match keyword classification. -/
def detectar_intencao (pergunta : String) : String :=
  let p := pyLower pergunta
  if temAlguma p ["ataque", "poder", "força", "dano"] then "ataque"
  else if temAlguma p ["defesa", "proteção", "resistência"] then "defesa"
  else if temAlguma p ["tipo", "tipos", "elemento"] then "tipo"
  else if temAlguma p ["habilidade", "habilidades", "podere", "poderes"] then
    "habilidade"
  else if temAlguma p ["evolução", "evolui"] then "evolucao"
  else if temAlguma p ["fraqueza", "fraquezas", "vulnerabilidade",
                       "vulnerabilidades", "contra", "fraco", "fracos"] then
    "fraqueza"
  else if temAlguma p ["local", "encontrar", "onde acha", "habitat"] then
    "localizacao"
  else if temAlguma p ["comparar", "vs", "versus", "mais forte",
                       "quem ganha"] then "comparar"
  else "geral"

/-! ## Entity extraction -/

/-- Source `extrair_nomes_de_pokemon`: whitespace tokens whose cleaned lower-case
form is a known name, emitted as `token.capitalize()`. -/
def extrair_nomes_de_pokemon (cache : List CachePoke) (texto : String) :
    List String :=
  (pySplitWs texto).filterMap fun palavra =>
    if pyLower (limpar_nome palavra) ∈ NOMES_VALIDOS cache then
      some (pyCapitalize palavra)
    else none

/-! ## Response synthesis (`gerar_resposta`) -/

/-- Model of `re.findall` with pattern `[A-Z][a-z]+`: leftmost non-overlapping maximal
matches. -/
def isAsciiUpper (c : Char) : Bool := 65 ≤ c.toNat && c.toNat ≤ 90
def isAsciiLower (c : Char) : Bool := 97 ≤ c.toNat && c.toNat ≤ 122

/-- Scan engine for `findall`, fuelled by the input length (which always
suffices, as every step strictly shortens the list). -/
def findallCapF : Nat → List Char → List String
  | 0, _ => []
  | _, [] => []
  | fuel + 1, c :: cs =>
    if isAsciiUpper c then
      match cs with
      | [] => []
      | d :: ds =>
        if isAsciiLower d then
          (⟨c :: d :: ds.takeWhile isAsciiLower⟩ : String) ::
            findallCapF fuel (ds.dropWhile isAsciiLower)
        else findallCapF fuel (d :: ds)
    else findallCapF fuel cs

def findallCap (l : List Char) : List String := findallCapF l.length l

/-- The per-name resolution used by both the Compare branch and the
orchestrator: remote first, cache on miss. -/
def resolver (env : String → ApiEnv) (cache : List CachePoke)
    (nome : String) : Option Registro :=
  match buscar_na_pokeapi (env nome) cache nome with
  | some dados => some dados
  | none => buscar_no_json cache nome

/-- The Compare usage hint. -/
def fraseDica : String :=
  "Por favor, pergunte algo como \x27Quem é mais forte: Charizard ou Blastoise?\x27"

/-- One line of the per-stat comparison; Python raises `TypeError` when a
`None` stat value meets `>`. -/
def linhaComparacao (poke1 poke2 stat : String) (v1 v2 : Option Int) :
    Except Unit String :=
  match v1, v2 with
  | some a, some b =>
    if a > b then
      .ok (poke1 ++ " tem mais " ++ stat ++ " (" ++ toString a ++ " vs " ++
        toString b ++ ")")
    else if b > a then
      .ok (poke2 ++ " tem mais " ++ stat ++ " (" ++ toString b ++ " vs " ++
        toString a ++ ")")
    else .ok ("Empate em " ++ stat ++ " (" ++ toString a ++ ")")
  | _, _ => .error ()

/-- The comparison text built once both names resolve (lines 246-265). -/
def comparar_registros (poke1 poke2 : String) (dados1 dados2 : Registro) :
    Except Unit String := do
  let linha := fun stat => linhaComparacao poke1 poke2 stat
    (dictGetD0 dados1.stats stat) (dictGetD0 dados2.stats stat)
  let c1 ← linha "attack"
  let c2 ← linha "defense"
  let c3 ← linha "hp"
  let c4 ← linha "speed"
  let comparacao := [c1, c2, c3, c4]
  let a1 ← dictItem dados1.stats "attack"
  let a2 ← dictItem dados2.stats "attack"
  let d1 ← dictItem dados1.stats "defense"
  let d2 ← dictItem dados2.stats "defense"
  let h1 ← dictItem dados1.stats "hp"
  let h2 ← dictItem dados2.stats "hp"
  let s1 ← dictItem dados1.stats "speed"
  let s2 ← dictItem dados2.stats "speed"
  pure ("⚖️ Comparação entre " ++ poke1 ++ " e " ++ poke2 ++ ":\n" ++
    "🔥 Ataque: " ++ pyRepr a1 ++ " vs " ++ pyRepr a2 ++ "\n" ++
    "🛡️ Defesa: " ++ pyRepr d1 ++ " vs " ++ pyRepr d2 ++ "\n" ++
    "❤️ HP: " ++ pyRepr h1 ++ " vs " ++ pyRepr h2 ++ "\n" ++
    "⚡ Velocidade: " ++ pyRepr s1 ++ " vs " ++ pyRepr s2 ++ "\n" ++
    "\n🔍 Análise:\n" ++ String.intercalate "\n" (comparacao.take 3))

def locais : List (String × String) :=
  [("Pikachu", "Floresta de Viridian"),
   ("Charizard", "Montanha da Liga Pokémon"),
   ("Blastoise", "Lagos do Vale Celeste")]

/-- Source `gerar_resposta`: one template per intent.  Stat accesses through `[]`
propagate `KeyError` as `Except.error`. -/
def gerar_resposta (env : String → ApiEnv) (cache : List CachePoke)
    (memoria : Memoria) (intencao : String) (dados : Registro) :
    Except Unit String :=
  let nome := dados.nome
  if intencao = "ataque" then do
    let v ← dictItem dados.stats "attack"
    pure ("⚔️ " ++ nome ++ " tem " ++ pyRepr v ++ " de ataque base!")
  else if intencao = "defesa" then do
    let v ← dictItem dados.stats "defense"
    pure ("🛡️ " ++ nome ++ " tem " ++ pyRepr v ++ " de defesa base!")
  else if intencao = "tipo" then
    pure ("🌿 " ++ nome ++ " é do tipo: " ++
      String.intercalate ", " dados.tipos)
  else if intencao = "habilidade" then
    pure ("✨ Habilidades de " ++ nome ++ ": " ++
      String.intercalate ", " dados.habilidades)
  else if intencao = "evolucao" then
    pure ("🔮 " ++ nome ++ " evolui para: " ++
      String.intercalate ", " dados.evolucao)
  else if intencao = "fraqueza" then
    let fraquezas := calcular_fraquezas dados.tipos
    pure ("⚠️ " ++ nome ++ " é fraco contra: " ++
      (if fraquezas.isEmpty then "Nenhum tipo em especial"
       else String.intercalate ", " fraquezas))
  else if intencao = "localizacao" then
    let localNome :=
      match locais.find? (fun p => p.1 == nome) with
      | some p => p.2
      | none => "Localização desconhecida na primeira geração"
    pure ("🗺️ " ++ nome ++ " pode ser encontrado em: " ++ localNome)
  else if intencao = "comparar" then
    let pokemons := findallCap (contexto memoria).data
    match pokemons with
    | poke1 :: poke2 :: _ =>
      let dados1 := resolver env cache poke1
      let dados2 := resolver env cache poke2
      match dados1, dados2 with
      | some d1, some d2 => comparar_registros poke1 poke2 d1 d2
      | _, _ => pure fraseDica
    | _ => pure fraseDica
  else do
    let hp ← dictItem dados.stats "hp"
    let atk ← dictItem dados.stats "attack"
    let dfs ← dictItem dados.stats "defense"
    let spd ← dictItem dados.stats "speed"
    pure ("📘 " ++ nome ++ " (" ++ dados.fonte ++ ")\n" ++
      "🌿 Tipos: " ++ String.intercalate ", " dados.tipos ++ "\n" ++
      "✨ Habilidades: " ++ String.intercalate ", " dados.habilidades ++
      "\n" ++ "📖 Descrição: " ++ dados.descricao ++ "\n" ++
      "📏 Altura: " ++ rendAlt dados.altura ++ "m | Peso: " ++
      rendAlt dados.peso ++ "kg\n" ++
      "⚔️ Stats:\n" ++
      "  - HP: " ++ pyRepr hp ++ "\n" ++
      "  - Ataque: " ++ pyRepr atk ++ "\n" ++
      "  - Defesa: " ++ pyRepr dfs ++ "\n" ++
      "  - Velocidade: " ++ pyRepr spd ++ "\n" ++
      "🔮 Evolução: " ++ String.intercalate ", " dados.evolucao)

/-! ## Orchestrator (`responder`) -/

/-- The disambiguation confirmation (lines 297-299): with two or more
candidates, keep the first when the answer is exactly `"1"`, otherwise the
second. -/
def desambiguar (confirmacao : String) : List String → List String
  | n1 :: n2 :: _ => [if confirmacao = "1" then n1 else n2]
  | nomes => nomes

/-- The candidate list `responder` resolves: extraction, then the
`ultimo_pokemon` fallback, then disambiguation. -/
def candidatos (cache : List CachePoke) (st : Memoria)
    (confirmacao : String) (pergunta : String) : List String :=
  let nomes := extrair_nomes_de_pokemon cache pergunta
  let nomes :=
    if nomes.isEmpty then
      match st.ultimo with
      | some u => [u]
      | none => []
    else nomes
  desambiguar confirmacao nomes

def msgSemPokemon : String :=
  "❓ Não identifiquei um Pokémon na sua pergunta. Poderia ser mais específico?"

def msgSemDados (nomes : List String) : String :=
  "❌ Não encontrei dados sobre " ++ String.intercalate ", " nomes

/-- The resolution loop (lines 305-312): first candidate that resolves. -/
def buscaLoop (env : String → ApiEnv) (cache : List CachePoke) :
    List String → Option Registro
  | [] => none
  | nome :: resto =>
    match resolver env cache nome with
    | some dados => some dados
    | none => buscaLoop env cache resto

/-- Source `responder`: per-turn orchestration.  `confirmacao` is the
disambiguation `input()`; the result pairs the reply with the updated
memory, and an uncaught Python exception surfaces as `Except.error`
(a crash of the app, after which no reply exists — the post-crash global
memory is therefore not part of the result). -/
def responder (env : String → ApiEnv) (cache : List CachePoke)
    (confirmacao : String) (st : Memoria) (pergunta : String) :
    Except Unit (String × Memoria) :=
  let intencao := detectar_intencao pergunta
  let nomes := candidatos cache st confirmacao pergunta
  if nomes.isEmpty then .ok (msgSemPokemon, st)
  else
    match buscaLoop env cache nomes with
    | none => .ok (msgSemDados nomes, st)
    | some dados => do
      let resposta ← gerar_resposta env cache st intencao dados
      .ok (resposta,
        { historico := adicionar st.historico (pergunta, resposta)
          ultimo := some dados.nome })

/-! ## Concrete instances used by witnesses and counterexamples -/

/-- A cache entry shaped like the Gen-1 pokédex file. -/
def pikachuCache : CachePoke where
  nome := "Pikachu"
  tipos := ["Elétrico"]
  habilidades := ["Static"]
  altura := some (4/10)
  peso := some 6
  stats := [("hp", 35), ("ataque", 55), ("defesa", 40),
            ("ataque_especial", 50), ("defesa_especial", 50),
            ("velocidade", 90)]
  descricao := some "Um rato elétrico."
  evolucao := some ["Raichu"]

def cacheExemplo : List CachePoke := [pikachuCache]

/-- A network where every fetch raises (remote fully down). -/
def envFora : String → ApiEnv := fun _ => ⟨.exn, .exn, .exn⟩

/-- Primary body used by the secondary-failure scenario. -/
def pokeDataExemplo : PokeData where
  stats := [⟨"hp", 35⟩, ⟨"attack", 55⟩]
  types := ["electric"]
  abilities := ["static"]
  height := some 4
  weight := some 60

/-- Remote primary succeeds (200) but the species fetch returns 404. -/
def envSpecies404 : ApiEnv where
  poke := .resp 200 (.ok pokeDataExemplo)
  species := .resp 404 (.ok ⟨none, false⟩)
  chainFetch := .exn

/-- Remote primary succeeds with an *empty* stats array; species fetch
succeeds with no evolution chain. -/
def envStatsVazios : ApiEnv where
  poke := .resp 200 (.ok ⟨[], ["electric"], [], none, none⟩)
  species := .resp 200 (.ok ⟨some [⟨"A mouse.", "en"⟩], false⟩)
  chainFetch := .exn

/-- A memory whose context mentions the same name twice and nothing
else. -/
def memoriaDupla : Memoria where
  historico := [("Pikachu", "Pikachu forte")]
  ultimo := none

/-- A record handed to `gerar_resposta` in the Compare scenario (the
Compare branch ignores it). -/
def registroDummy : Registro where
  nome := "Pikachu"
  tipos := []
  habilidades := []
  altura := .na
  peso := .na
  stats := []
  descricao := ""
  evolucao := []
  fonte := "Cache Local"

/-! # Theorems

## Character-level lemmas -/

theorem toNat_ofNat_valid (n : Nat) (h : n < 55296) :
    (Char.ofNat n).toNat = n := by
  have hv : Nat.isValidChar n := Or.inl h
  simp only [Char.ofNat, hv, dite_true]
  rfl

theorem pyCharLower_idem (c : Char) :
    pyCharLower (pyCharLower c) = pyCharLower c := by
  unfold pyCharLower
  by_cases h : (65 ≤ c.toNat ∧ c.toNat ≤ 90) ∨
      (192 ≤ c.toNat ∧ c.toNat ≤ 222 ∧ c.toNat ≠ 215)
  · rw [if_pos h]
    have ht : (Char.ofNat (c.toNat + 32)).toNat = c.toNat + 32 :=
      toNat_ofNat_valid _ (by omega)
    rw [if_neg (by rw [ht]; omega)]
  · rw [if_neg h, if_neg h]

theorem pyCharLower_pyCharUpper (c : Char) :
    pyCharLower (pyCharUpper c) = pyCharLower c := by
  unfold pyCharUpper
  by_cases h : (97 ≤ c.toNat ∧ c.toNat ≤ 122) ∨
      (224 ≤ c.toNat ∧ c.toNat ≤ 254 ∧ c.toNat ≠ 247)
  · rw [if_pos h]
    have ht : (Char.ofNat (c.toNat - 32)).toNat = c.toNat - 32 :=
      toNat_ofNat_valid _ (by omega)
    unfold pyCharLower
    rw [if_pos (by rw [ht]; omega), if_neg (by omega), ht]
    have h32 : c.toNat - 32 + 32 = c.toNat := by omega
    rw [h32, Char.ofNat_toNat]
  · rw [if_neg h]

theorem pyLower_data (s : String) : (pyLower s).data = s.data.map pyCharLower :=
  rfl

theorem pyLower_idem (s : String) : pyLower (pyLower s) = pyLower s := by
  unfold pyLower
  rw [String.ext_iff]
  simp only [List.map_map]
  exact List.map_congr_left fun c _ => by
    simp only [Function.comp_apply]
    exact pyCharLower_idem c

theorem pyLower_length (s : String) : (pyLower s).length = s.length := by
  show (s.data.map pyCharLower).length = s.data.length
  exact List.length_map _ _

theorem pyLower_pyCapitalize (s : String) :
    pyLower (pyCapitalize s) = pyLower s := by
  unfold pyCapitalize pyLower
  cases hd : s.data with
  | nil => simp [hd]
  | cons c cs =>
    rw [String.ext_iff]
    simp only [hd, List.map_cons, List.map_map]
    congr 1
    · exact pyCharLower_pyCharUpper c
    · exact List.map_congr_left fun d _ => by
        simp only [Function.comp_apply]
        exact pyCharLower_idem d

/-! ## Ratcliff-Obershelp lemmas

`matchTotal` is at most the shorter length, reaches both lengths only on
equal strings, and is the full length on a string against itself; hence the
ratio is at most 1, and exactly 1 only for equal strings. -/

theorem commonRun_le (a b : List Char) :
    commonRun a b ≤ min a.length b.length := by
  induction a generalizing b with
  | nil => cases b <;> simp [commonRun]
  | cons x xs ih =>
    cases b with
    | nil => simp [commonRun]
    | cons y ys =>
      simp only [commonRun, List.length_cons]
      split
      · have := ih ys
        omega
      · omega

theorem commonRun_take (a b : List Char) :
    a.take (commonRun a b) = b.take (commonRun a b) := by
  induction a generalizing b with
  | nil => cases b <;> simp [commonRun]
  | cons x xs ih =>
    cases b with
    | nil => simp [commonRun]
    | cons y ys =>
      simp only [commonRun]
      split
      · rename_i hxy
        simp [List.take_succ_cons, hxy, ih ys]
      · simp

theorem commonRun_self (a : List Char) : commonRun a a = a.length := by
  induction a with
  | nil => simp [commonRun]
  | cons x xs ih => simp [commonRun, ih]

theorem mem_allPairs {m n : Nat} {p : Nat × Nat} (h : p ∈ allPairs m n) :
    p.1 < m ∧ p.2 < n := by
  unfold allPairs at h
  simp only [List.mem_flatMap, List.mem_map, List.mem_range] at h
  obtain ⟨i, hi, j, hj, rfl⟩ := h
  exact ⟨hi, hj⟩

theorem zero_mem_allPairs {m n : Nat} (hm : 0 < m) (hn : 0 < n) :
    ((0, 0) : Nat × Nat) ∈ allPairs m n := by
  unfold allPairs
  simp only [List.mem_flatMap, List.mem_map, List.mem_range]
  exact ⟨0, hm, 0, hn, rfl⟩

theorem lmFold_good (a b : List Char) (l : List (Nat × Nat))
    (init : Nat × Nat × Nat)
    (hl : ∀ p ∈ l, p.1 < a.length ∧ p.2 < b.length)
    (h1 : init.1 + init.2.2 ≤ a.length)
    (h2 : init.2.1 + init.2.2 ≤ b.length)
    (h3 : (a.drop init.1).take init.2.2 = (b.drop init.2.1).take init.2.2) :
    (l.foldl (lmStep a b) init).1 + (l.foldl (lmStep a b) init).2.2 ≤
        a.length ∧
      (l.foldl (lmStep a b) init).2.1 + (l.foldl (lmStep a b) init).2.2 ≤
        b.length ∧
      (a.drop (l.foldl (lmStep a b) init).1).take
          (l.foldl (lmStep a b) init).2.2 =
        (b.drop (l.foldl (lmStep a b) init).2.1).take
          (l.foldl (lmStep a b) init).2.2 := by
  induction l generalizing init with
  | nil => exact ⟨h1, h2, h3⟩
  | cons p ps ih =>
    simp only [List.foldl_cons]
    have hp := hl p (List.mem_cons_self p ps)
    have hps : ∀ q ∈ ps, q.1 < a.length ∧ q.2 < b.length :=
      fun q hq => hl q (List.mem_cons_of_mem p hq)
    unfold lmStep
    split
    · refine ih (p.1, p.2, crAt a b p) hps ?_ ?_ ?_
      · have := commonRun_le (a.drop p.1) (b.drop p.2)
        simp only [List.length_drop] at this
        unfold crAt
        simp only
        omega
      · have := commonRun_le (a.drop p.1) (b.drop p.2)
        simp only [List.length_drop] at this
        unfold crAt
        simp only
        omega
      · exact commonRun_take (a.drop p.1) (b.drop p.2)
    · exact ih init hps h1 h2 h3

theorem lmFold_k_mono (a b : List Char) (l : List (Nat × Nat))
    (init : Nat × Nat × Nat) :
    init.2.2 ≤ (l.foldl (lmStep a b) init).2.2 := by
  induction l generalizing init with
  | nil => exact le_refl _
  | cons p ps ih =>
    simp only [List.foldl_cons]
    unfold lmStep
    split
    · rename_i h
      exact le_trans (le_of_lt h) (ih (p.1, p.2, crAt a b p))
    · exact ih init

theorem lmFold_k_ge (a b : List Char) (l : List (Nat × Nat))
    (init : Nat × Nat × Nat) (p : Nat × Nat) (hp : p ∈ l) :
    crAt a b p ≤ (l.foldl (lmStep a b) init).2.2 := by
  induction l generalizing init with
  | nil => cases hp
  | cons q qs ih =>
    simp only [List.foldl_cons]
    rcases List.mem_cons.mp hp with rfl | hmem
    · refine le_trans ?_ (lmFold_k_mono a b qs (lmStep a b init p))
      unfold lmStep
      split
      · exact le_refl _
      · omega
    · exact ih _ hmem

theorem longestMatch_good (a b : List Char) :
    (longestMatch a b).1 + (longestMatch a b).2.2 ≤ a.length ∧
      (longestMatch a b).2.1 + (longestMatch a b).2.2 ≤ b.length ∧
      (a.drop (longestMatch a b).1).take (longestMatch a b).2.2 =
        (b.drop (longestMatch a b).2.1).take (longestMatch a b).2.2 := by
  unfold longestMatch
  exact lmFold_good a b _ (0, 0, 0) (fun p hp => mem_allPairs hp)
    (by simp) (by simp) (by simp)

theorem longestMatch_self (a : List Char) :
    longestMatch a a = (0, 0, a.length) := by
  rcases Nat.eq_zero_or_pos a.length with hz | hpos
  · have ha : a = [] := List.length_eq_zero.mp hz
    subst ha
    rfl
  · have hk : a.length ≤ (longestMatch a a).2.2 := by
      have hmem := zero_mem_allPairs hpos hpos
      have := lmFold_k_ge a a (allPairs a.length a.length) (0, 0, 0)
        (0, 0) hmem
      unfold crAt at this
      simpa [commonRun_self] using this
    obtain ⟨g1, g2, -⟩ := longestMatch_good a a
    have e1 : (longestMatch a a).1 = 0 := by omega
    have e2 : (longestMatch a a).2.1 = 0 := by omega
    have e3 : (longestMatch a a).2.2 = a.length := by omega
    calc longestMatch a a
        = ((longestMatch a a).1, (longestMatch a a).2.1,
            (longestMatch a a).2.2) := rfl
      _ = (0, 0, a.length) := by rw [e1, e2, e3]

theorem matchTotalF_le (fuel : Nat) :
    ∀ a b : List Char, matchTotalF fuel a b ≤ min a.length b.length := by
  induction fuel with
  | zero => intro a b; simp [matchTotalF]
  | succ fuel ih =>
    intro a b
    rw [matchTotalF]
    split
    · omega
    · rename_i hk
      obtain ⟨g1, g2, -⟩ := longestMatch_good a b
      have hL := ih (a.take (longestMatch a b).1)
        (b.take (longestMatch a b).2.1)
      have hR := ih (a.drop ((longestMatch a b).1 + (longestMatch a b).2.2))
        (b.drop ((longestMatch a b).2.1 + (longestMatch a b).2.2))
      simp only [List.length_take, List.length_drop] at hL hR
      omega

theorem matchTotalF_eq_of (fuel : Nat) :
    ∀ a b : List Char, matchTotalF fuel a b = a.length →
      matchTotalF fuel a b = b.length → a = b := by
  induction fuel with
  | zero =>
    intro a b ha hb
    have ha0 : (0 : Nat) = a.length := ha
    have hb0 : (0 : Nat) = b.length := hb
    have hae : a = [] := List.length_eq_zero.mp ha0.symm
    have hbe : b = [] := List.length_eq_zero.mp hb0.symm
    rw [hae, hbe]
  | succ fuel ih =>
    intro a b ha hb
    rw [matchTotalF] at ha hb
    by_cases hk : (longestMatch a b).2.2 = 0
    · rw [if_pos hk] at ha hb
      have hae : a = [] := List.length_eq_zero.mp ha.symm
      have hbe : b = [] := List.length_eq_zero.mp hb.symm
      rw [hae, hbe]
    · rw [if_neg hk] at ha hb
      obtain ⟨g1, g2, gmid⟩ := longestMatch_good a b
      set i := (longestMatch a b).1 with hi
      set j := (longestMatch a b).2.1 with hj
      set k := (longestMatch a b).2.2 with hkdef
      have hLle := matchTotalF_le fuel (a.take i) (b.take j)
      have hRle := matchTotalF_le fuel (a.drop (i + k)) (b.drop (j + k))
      simp only [List.length_take, List.length_drop] at hLle hRle
      have hiL : i ≤ a.length := by omega
      have hjL : j ≤ b.length := by omega
      have hLa : matchTotalF fuel (a.take i) (b.take j) = i := by omega
      have hLb : matchTotalF fuel (a.take i) (b.take j) = j := by omega
      have hRa : matchTotalF fuel (a.drop (i + k)) (b.drop (j + k)) =
          a.length - (i + k) := by omega
      have hRb : matchTotalF fuel (a.drop (i + k)) (b.drop (j + k)) =
          b.length - (j + k) := by omega
      have hL := ih (a.take i) (b.take j)
        (by rw [hLa, List.length_take]; omega)
        (by rw [hLb, List.length_take]; omega)
      have hR := ih (a.drop (i + k)) (b.drop (j + k))
        (by rw [hRa, List.length_drop])
        (by rw [hRb, List.length_drop])
      have hsplit_a : a = a.take i ++ (a.drop i).take k ++ a.drop (i + k) := by
        rw [List.append_assoc]
        have : (a.drop i).take k ++ a.drop (i + k) = a.drop i := by
          have := List.take_append_drop k (a.drop i)
          rwa [List.drop_drop] at this
        rw [this, List.take_append_drop]
      have hsplit_b : b = b.take j ++ (b.drop j).take k ++ b.drop (j + k) := by
        rw [List.append_assoc]
        have : (b.drop j).take k ++ b.drop (j + k) = b.drop j := by
          have := List.take_append_drop k (b.drop j)
          rwa [List.drop_drop] at this
        rw [this, List.take_append_drop]
      rw [hsplit_a, hsplit_b, hL, hR, gmid]

theorem matchTotal_le (a b : List Char) :
    matchTotal a b ≤ min a.length b.length :=
  matchTotalF_le _ a b

theorem matchTotal_eq_of (a b : List Char) (ha : matchTotal a b = a.length)
    (hb : matchTotal a b = b.length) : a = b :=
  matchTotalF_eq_of _ a b ha hb

theorem matchTotal_self (a : List Char) : matchTotal a a = a.length := by
  rcases Nat.eq_zero_or_pos a.length with hz | hpos
  · have ha : a = [] := List.length_eq_zero.mp hz
    subst ha
    rfl
  · unfold matchTotal
    obtain ⟨fuel, hfuel⟩ : ∃ f, a.length + a.length = f + 1 :=
      ⟨a.length + a.length - 1, by omega⟩
    rw [hfuel, matchTotalF]
    simp only [longestMatch_self]
    rw [if_neg (by omega)]
    simp only [List.take_zero, Nat.zero_add, List.drop_length]
    have h0 : matchTotalF fuel ([] : List Char) [] = 0 := by
      cases fuel <;> rfl
    rw [h0]
    omega

theorem razaoSim_le_one (x w : String) : razaoSim x w ≤ 1 := by
  unfold razaoSim
  by_cases hT : x.length + w.length = 0
  · simp [hT]
  · rw [if_neg hT, Rat.mkRat_eq_div]
    rw [div_le_one (by exact_mod_cast Nat.pos_of_ne_zero hT)]
    have hle := matchTotal_le x.data w.data
    have hx : x.data.length = x.length := rfl
    have hw : w.data.length = w.length := rfl
    rw [hx, hw] at hle
    have h2 : 2 * matchTotal x.data w.data ≤ x.length + w.length := by omega
    push_cast
    exact_mod_cast h2

theorem razaoSim_self (w : String) : razaoSim w w = 1 := by
  unfold razaoSim
  by_cases hT : w.length + w.length = 0
  · simp [hT]
  · rw [if_neg hT, Rat.mkRat_eq_div]
    have hself := matchTotal_self w.data
    have hw : w.data.length = w.length := rfl
    rw [hw] at hself
    rw [hself]
    rw [div_eq_one_iff_eq (by exact_mod_cast hT)]
    push_cast
    ring

theorem eq_of_razaoSim_eq_one (x w : String) (h : razaoSim x w = 1) :
    x = w := by
  unfold razaoSim at h
  by_cases hT : x.length + w.length = 0
  · have hx : x.data.length = 0 := by
      have : x.data.length = x.length := rfl
      omega
    have hw : w.data.length = 0 := by
      have : w.data.length = w.length := rfl
      omega
    have : x.data = [] := List.length_eq_zero.mp hx
    have : w.data = [] := List.length_eq_zero.mp hw
    cases x
    cases w
    simp_all
  · rw [if_neg hT, Rat.mkRat_eq_div,
      div_eq_one_iff_eq (by exact_mod_cast hT)] at h
    have hnat : 2 * matchTotal x.data w.data = x.length + w.length := by
      exact_mod_cast h
    have hle := matchTotal_le x.data w.data
    have hx : x.data.length = x.length := rfl
    have hw : w.data.length = w.length := rfl
    rw [hx, hw] at hle
    have hda : matchTotal x.data w.data = x.data.length := by rw [hx]; omega
    have hdb : matchTotal x.data w.data = w.data.length := by rw [hw]; omega
    have := matchTotal_eq_of x.data w.data hda hdb
    cases x
    cases w
    simp_all

theorem melhorTupla_fold_eq (w : String) :
    ∀ (l : List String) (acc : Option String),
      (w ∈ l ∨ acc = some w) →
      (∀ x ∈ l, razaoSim x w = 1 → x = w) →
      (∀ y, acc = some y → razaoSim y w = 1 → y = w) →
      l.foldl (nlargestStep w) acc = some w := by
  intro l
  induction l with
  | nil =>
    intro acc hin hl hacc
    rcases hin with h | h
    · cases h
    · simpa using h
  | cons x xs ih =>
    intro acc hin hl hacc
    rw [List.foldl_cons]
    have hlx : razaoSim x w = 1 → x = w := hl x (List.mem_cons_self x xs)
    have hlxs : ∀ z ∈ xs, razaoSim z w = 1 → z = w :=
      fun z hz => hl z (List.mem_cons_of_mem x hz)
    cases acc with
    | none =>
      rw [show nlargestStep w none x = some x from rfl]
      rcases hin with hmem | hw
      · rcases List.mem_cons.mp hmem with heq | hxs
        · exact ih (some x) (Or.inr (by rw [heq]))
            hlxs (fun y hy hr => by cases hy; exact hlx hr)
        · exact ih (some x) (Or.inl hxs)
            hlxs (fun y hy hr => by cases hy; exact hlx hr)
      · cases hw
    | some b =>
      have hstep : nlargestStep w (some b) x =
          if razaoSim b w < razaoSim x w ∨
             (razaoSim b w = razaoSim x w ∧ b < x) then some x
          else some b := rfl
      rw [hstep]
      by_cases hcond : razaoSim b w < razaoSim x w ∨
          (razaoSim b w = razaoSim x w ∧ b < x)
      · rw [if_pos hcond]
        rcases hin with hmem | hw
        · rcases List.mem_cons.mp hmem with heq | hxs
          · exact ih (some x) (Or.inr (by rw [heq]))
              hlxs (fun y hy hr => by cases hy; exact hlx hr)
          · exact ih (some x) (Or.inl hxs)
              hlxs (fun y hy hr => by cases hy; exact hlx hr)
        · -- acc = some w yet the step replaced it: impossible
          exfalso
          cases hw
          rw [razaoSim_self] at hcond
          rcases hcond with hlt | ⟨heq, hltstr⟩
          · exact absurd hlt (not_lt.mpr (razaoSim_le_one x w))
          · have hxw2 := hlx heq.symm
            rw [hxw2] at hltstr
            exact absurd hltstr (lt_irrefl w)
      · rw [if_neg hcond]
        rcases hin with hmem | hw
        · rcases List.mem_cons.mp hmem with heq | hxs
          · -- x is w but was rejected: then b already has ratio 1, so b = w
            push_neg at hcond
            have hble : razaoSim b w ≤ 1 := razaoSim_le_one b w
            have hxw : razaoSim x w = 1 := by rw [heq]; exact razaoSim_self x
            have hbeq : razaoSim b w = 1 := by
              have := hcond.1
              rw [hxw] at this
              exact le_antisymm hble this
            have hbw : b = w := hacc b rfl hbeq
            exact ih (some b) (Or.inr (by rw [hbw])) hlxs hacc
          · exact ih (some b) (Or.inl hxs) hlxs hacc
        · exact ih (some b) (Or.inr hw) hlxs hacc

theorem get_close_matches1_mem (w : String) (poss : List String)
    (hmem : w ∈ poss) : get_close_matches1 w poss = some w := by
  unfold get_close_matches1 melhorTupla
  have hwf : w ∈ poss.filter fun x => decide (mkRat 3 5 ≤ razaoSim x w) := by
    rw [List.mem_filter]
    refine ⟨hmem, ?_⟩
    rw [decide_eq_true_eq, razaoSim_self, Rat.mkRat_eq_div]
    norm_num
  exact melhorTupla_fold_eq w _ none (Or.inl hwf)
    (fun x _ hx => eq_of_razaoSim_eq_one x w hx)
    (fun y hy => by cases hy)

theorem get_close_matches1_none (w : String) (poss : List String)
    (h : ∀ x ∈ poss, razaoSim x w < mkRat 3 5) :
    get_close_matches1 w poss = none := by
  unfold get_close_matches1
  have : poss.filter (fun x => decide (mkRat 3 5 ≤ razaoSim x w)) = [] := by
    rw [List.filter_eq_nil_iff]
    intro x hx
    rw [decide_eq_true_eq]
    exact not_le.mpr (h x hx)
  rw [this]
  rfl

/-- Exact known names are fixed points of the fuzzy correction. -/
theorem corrigir_mem (cache : List CachePoke) (s : String)
    (hs : s ∈ NOMES_VALIDOS cache) : corrigir_nome_pokemon cache s = s := by
  have hlow : pyLower s = s := by
    unfold NOMES_VALIDOS at hs
    obtain ⟨p, -, hp⟩ := List.mem_map.mp hs
    rw [← hp]
    exact pyLower_idem _
  unfold corrigir_nome_pokemon
  rw [hlow, get_close_matches1_mem s _ hs]

/-! ## Claim C9: fuzzy correction -/

/-- C9: fuzzy name correction is total and never raises (it is a Lean
function); every string of the known-names set is a fixed point; and when
no known name reaches the 0.6 similarity cutoff, the lower-cased input is
returned unchanged. -/
theorem C9_correcao_fuzzy (cache : List CachePoke) (s : String) :
    (s ∈ NOMES_VALIDOS cache → corrigir_nome_pokemon cache s = s) ∧
    ((∀ x ∈ NOMES_VALIDOS cache, razaoSim x (pyLower s) < mkRat 3 5) →
      corrigir_nome_pokemon cache s = pyLower s) := by
  refine ⟨corrigir_mem cache s, ?_⟩
  intro h
  unfold corrigir_nome_pokemon
  rw [get_close_matches1_none _ _ h]

set_option maxRecDepth 8000 in
/-- C9 witness: a known name maps to itself, an unmatchable junk string
maps to its lower-casing. -/
theorem C9_correcao_fuzzy_witness :
    corrigir_nome_pokemon cacheExemplo "pikachu" = "pikachu" ∧
    corrigir_nome_pokemon cacheExemplo "ZZZ" = "zzz" := by
  constructor
  · exact (C9_correcao_fuzzy cacheExemplo "pikachu").1 (by decide)
  · have h := (C9_correcao_fuzzy cacheExemplo "ZZZ").2 (by decide)
    rw [h]
    decide


/-! ## Claim C6: weakness computation -/

theorem fraquezas_foldl (tipos : List String) :
    ∀ acc : Finset String,
      tipos.foldl (fun fraquezas tipo =>
        if (tabela_tipos.find? (fun p => p.1 == tipo)).isSome then
          fraquezas ∪ tabelaLookup tipo
        else fraquezas) acc =
      acc ∪ tipos.toFinset.biUnion tabelaLookup := by
  induction tipos with
  | nil => intro acc; simp
  | cons t ts ih =>
    intro acc
    rw [List.foldl_cons]
    have hstep :
        (if (tabela_tipos.find? (fun p => p.1 == t)).isSome then
          acc ∪ tabelaLookup t
        else acc) = acc ∪ tabelaLookup t := by
      split
      · rfl
      · rename_i hnone
        have : tabela_tipos.find? (fun p => p.1 == t) = none := by
          cases hf : tabela_tipos.find? (fun p => p.1 == t)
          · rfl
          · rw [hf] at hnone
            simp at hnone
        unfold tabelaLookup
        rw [this]
        simp
    rw [hstep, ih]
    rw [List.toFinset_cons, Finset.biUnion_insert]
    rw [Finset.union_assoc]

/-- C6: `calcular_fraquezas` returns `[]` on `[]`; it depends only on the
set of input types (order- and multiplicity-independence); its output is
strictly sorted (hence duplicate-free); and an unknown type name
contributes nothing. -/
theorem C6_fraquezas (t : String) (l l1 l2 : List String) :
    calcular_fraquezas [] = [] ∧
    (l1.toFinset = l2.toFinset →
      calcular_fraquezas l1 = calcular_fraquezas l2) ∧
    List.Sorted (· < ·) (calcular_fraquezas l) ∧
    (calcular_fraquezas l).Nodup ∧
    (tabela_tipos.find? (fun p => p.1 == t) = none →
      calcular_fraquezas (t :: l) = calcular_fraquezas l) := by
  refine ⟨?_, ?_, ?_, ?_, ?_⟩
  · show Finset.sort (· ≤ ·) _ = []
    rw [List.foldl_nil]
    exact Finset.sort_empty _
  · intro h
    unfold calcular_fraquezas
    rw [fraquezas_foldl, fraquezas_foldl, h]
  · exact Finset.sort_sorted_lt _
  · exact Finset.sort_nodup _ _
  · intro h
    unfold calcular_fraquezas
    rw [fraquezas_foldl, fraquezas_foldl]
    rw [List.toFinset_cons, Finset.biUnion_insert]
    have : tabelaLookup t = ∅ := by
      unfold tabelaLookup
      rw [h]
    rw [this]
    simp

/-- C6 witness at concrete inputs. -/
theorem C6_fraquezas_witness :
    calcular_fraquezas ["Flying", "Fire"] =
      calcular_fraquezas ["Fire", "Flying", "Fire"] ∧
    calcular_fraquezas ["Unknown", "Fire"] = calcular_fraquezas ["Fire"] := by
  constructor
  · exact (C6_fraquezas "Fire" [] ["Flying", "Fire"]
      ["Fire", "Flying", "Fire"]).2.1 (by decide)
  · exact (C6_fraquezas "Unknown" ["Fire"] [] []).2.2.2.2 (by decide)

/-! ## Claim C7: conversational memory is a capacity-3 FIFO -/

theorem adicionar_spec (g : List (String × String)) (e : String × String) :
    adicionar g e = (g ++ [e]).drop (g.length + 1 - 3) := by
  simp [adicionar]

theorem adicionar_three (h : List (String × String))
    (x1 x2 x3 : String × String) :
    adicionar (adicionar (adicionar h x1) x2) x3 = [x1, x2, x3] := by
  rcases hlen : h.length with _ | n1
  · have h0 : h = [] := List.length_eq_zero.mp hlen
    subst h0
    simp [adicionar_spec]
  rcases n1 with _ | n2
  · obtain ⟨a, ha⟩ := List.length_eq_one.mp hlen
    subst ha
    simp [adicionar_spec]
  rcases n2 with _ | n3
  · obtain ⟨a, b, hab⟩ := List.length_eq_two.mp hlen
    subst hab
    simp [adicionar_spec]
  · -- h.length ≥ 3: the first append keeps only the last two of h
    have h1 : adicionar h x1 = h.drop (h.length - 2) ++ [x1] := by
      rw [adicionar_spec, show h.length + 1 - 3 = h.length - 2 from by omega,
        List.drop_append_of_le_length (by omega)]
    have hd2 : (h.drop (h.length - 2)).length = 2 := by
      rw [List.length_drop]
      omega
    obtain ⟨a, b, hab⟩ := List.length_eq_two.mp hd2
    rw [h1, hab]
    simp [adicionar_spec]

theorem foldl_adicionar_drop (xs : List (String × String)) :
    ∀ h, 3 ≤ xs.length →
      xs.foldl adicionar h = xs.drop (xs.length - 3) := by
  induction xs with
  | nil =>
    intro h h3
    simp at h3
  | cons x xs ih =>
    intro h h3
    rw [List.foldl_cons]
    by_cases hx : 3 ≤ xs.length
    · rw [ih _ hx]
      have hlen : (x :: xs).length - 3 = (xs.length - 3) + 1 := by
        simp only [List.length_cons]
        omega
      rw [hlen, List.drop_succ_cons]
    · have h2 : xs.length = 2 := by
        simp only [List.length_cons] at h3
        omega
      obtain ⟨a, b, hab⟩ := List.length_eq_two.mp h2
      subst hab
      show adicionar (adicionar (adicionar h x) a) b = _
      rw [adicionar_three]
      simp

/-- C7: after more than three successive `adicionar` calls, the memory
holds exactly the last three entries, in insertion order. -/
theorem C7_memoria_fifo (h : List (String × String))
    (xs : List (String × String)) (hN : 3 < xs.length) :
    (xs.foldl adicionar h).length = 3 ∧
    xs.foldl adicionar h = xs.drop (xs.length - 3) := by
  have heq := foldl_adicionar_drop xs h (by omega)
  refine ⟨?_, heq⟩
  rw [heq, List.length_drop]
  omega

/-- C7 witness: four insertions leave exactly the last three. -/
theorem C7_memoria_fifo_witness :
    (([(("q1" : String), ("r1" : String)), ("q2", "r2"), ("q3", "r3"),
        ("q4", "r4")].foldl adicionar []).length = 3 ∧
     [(("q1" : String), ("r1" : String)), ("q2", "r2"), ("q3", "r3"),
        ("q4", "r4")].foldl adicionar [] =
       [(("q1" : String), ("r1" : String)), ("q2", "r2"), ("q3", "r3"),
        ("q4", "r4")].drop
         ([(("q1" : String), ("r1" : String)), ("q2", "r2"), ("q3", "r3"),
        ("q4", "r4")].length - 3)) :=
  C7_memoria_fifo []
    [("q1", "r1"), ("q2", "r2"), ("q3", "r3"), ("q4", "r4")] (by decide)

/-! ## Claim C10: disambiguation -/

/-- C10: with two or more extracted candidates, the disambiguation step
returns exactly one name taken from the first two: the first when the
answer is exactly `"1"`, the second for every other answer; later
candidates can never be chosen. -/
theorem C10_desambiguacao (confirmacao n1 n2 : String)
    (resto : List String) :
    desambiguar confirmacao (n1 :: n2 :: resto) =
      [if confirmacao = "1" then n1 else n2] := rfl

/-! ## Claim C5: cache fallback with remapped stat keys -/

/-- C5: when the remote fetch misses and the queried (punctuation-free)
name appears case-insensitively in the local cache, resolution falls back
to the cache: the first entry whose lower-cased name equals the lower-cased
query is returned, with `fonte = "Cache Local"` and the cache's Portuguese
stat fields (`hp`, `ataque`, `defesa`, `ataque_especial`,
`defesa_especial`, `velocidade`) remapped onto the six canonical keys. -/
theorem C5_fallback_cache (env : String → ApiEnv) (cache : List CachePoke)
    (nome : String)
    (hclean : limpar_nome nome = nome)
    (hmem : pyLower nome ∈ NOMES_VALIDOS cache)
    (hremote : buscar_na_pokeapi (env nome) cache nome = none) :
    ∃ p, cache.find? (fun q => pyLower q.nome == pyLower nome) = some p ∧
      resolver env cache nome = some (registroDoCache p) ∧
      (registroDoCache p).fonte = "Cache Local" ∧
      (registroDoCache p).stats =
        [("hp", (p.stats.find? (fun s => s.1 == "hp")).map Prod.snd),
         ("attack",
           (p.stats.find? (fun s => s.1 == "ataque")).map Prod.snd),
         ("defense",
           (p.stats.find? (fun s => s.1 == "defesa")).map Prod.snd),
         ("special-attack",
           (p.stats.find? (fun s => s.1 == "ataque_especial")).map Prod.snd),
         ("special-defense",
           (p.stats.find? (fun s => s.1 == "defesa_especial")).map Prod.snd),
         ("speed",
           (p.stats.find? (fun s => s.1 == "velocidade")).map Prod.snd)] := by
  have hcorr : corrigir_nome_pokemon cache (limpar_nome nome) =
      pyLower nome := by
    rw [hclean]
    unfold corrigir_nome_pokemon
    rw [get_close_matches1_mem _ _ hmem]
  have hfind : ∃ p,
      cache.find? (fun q => pyLower q.nome == pyLower nome) = some p := by
    have hsome :
        (cache.find? (fun q => pyLower q.nome == pyLower nome)).isSome := by
      rw [List.find?_isSome]
      unfold NOMES_VALIDOS at hmem
      obtain ⟨p, hp, hlow⟩ := List.mem_map.mp hmem
      exact ⟨p, hp, by rw [hlow]; simp⟩
    exact Option.isSome_iff_exists.mp hsome
  obtain ⟨p, hp⟩ := hfind
  refine ⟨p, hp, ?_, rfl, rfl⟩
  unfold resolver
  rw [hremote]
  show buscar_no_json cache nome = some (registroDoCache p)
  unfold buscar_no_json
  simp only [hcorr]
  rw [hp]

set_option maxRecDepth 8000 in
/-- C5 witness: remote fully down, `Pikachu` present in the cache. -/
theorem C5_fallback_cache_witness :
    ∃ p, cacheExemplo.find?
        (fun q => pyLower q.nome == pyLower "Pikachu") = some p ∧
      resolver envFora cacheExemplo "Pikachu" = some (registroDoCache p) ∧
      (registroDoCache p).fonte = "Cache Local" ∧
      (registroDoCache p).stats =
        [("hp", (p.stats.find? (fun s => s.1 == "hp")).map Prod.snd),
         ("attack",
           (p.stats.find? (fun s => s.1 == "ataque")).map Prod.snd),
         ("defense",
           (p.stats.find? (fun s => s.1 == "defesa")).map Prod.snd),
         ("special-attack",
           (p.stats.find? (fun s => s.1 == "ataque_especial")).map Prod.snd),
         ("special-defense",
           (p.stats.find? (fun s => s.1 == "defesa_especial")).map Prod.snd),
         ("speed",
           (p.stats.find? (fun s => s.1 == "velocidade")).map Prod.snd)] :=
  C5_fallback_cache envFora cacheExemplo "Pikachu" (by decide) (by decide)
    rfl

/-! ## Claim C8: evolution-chain extraction -/

mutual
theorem extrair_preorder (nome : String) : ∀ c : ChainNode,
    extrair_evolucoes nome c =
      ((preorderSpecies c).filter fun sp =>
        pyLower sp != nome).map pyCapitalize
  | .mk sp evos => by
    rw [extrair_evolucoes, preorderSpecies, List.filter_cons]
    have hcap : pyLower (pyCapitalize sp) = pyLower sp :=
      pyLower_pyCapitalize sp
    by_cases h : pyLower sp = nome
    · rw [if_neg (by rw [hcap, h]; simp), if_neg (by simp [h])]
      simp only [List.nil_append]
      exact extrairList_preorder nome evos
    · rw [if_pos (by rw [hcap]; exact h), if_pos (by simp [h])]
      simp only [List.map_cons, List.cons_append, List.nil_append]
      rw [extrairList_preorder nome evos]

theorem extrairList_preorder (nome : String) : ∀ l : List ChainNode,
    extrairEvolucoesList nome l =
      ((preorderSpeciesList l).filter fun sp =>
        pyLower sp != nome).map pyCapitalize
  | [] => by
    rw [extrairEvolucoesList, preorderSpeciesList]
    rfl
  | c :: cs => by
    rw [extrairEvolucoesList, preorderSpeciesList, List.filter_append,
      List.map_append, extrair_preorder nome c,
      extrairList_preorder nome cs]
end

/-- C8: `extrair_evolucoes` is exactly the pre-order species listing (node
first, then each `evolves_to` branch depth-first), capitalized, with the
nodes matching the corrected query name (case-insensitively) skipped; and
when nothing remains, the `evolucao` field is the `["Não evolui"]`
sentinel. -/
theorem C8_cadeia_evolucao (nome : String) (c : ChainNode) :
    extrair_evolucoes nome c =
      ((preorderSpecies c).filter fun sp =>
        pyLower sp != nome).map pyCapitalize ∧
    (extrair_evolucoes nome c = [] →
      evolucaoCampo nome c = ["Não evolui"]) ∧
    (extrair_evolucoes nome c ≠ [] →
      evolucaoCampo nome c = extrair_evolucoes nome c) := by
  refine ⟨extrair_preorder nome c, ?_, ?_⟩
  · intro h
    unfold evolucaoCampo
    rw [h]
    rfl
  · intro h
    unfold evolucaoCampo
    rw [if_neg (by simpa [List.isEmpty_iff] using h)]

/-- C8 witness: a three-stage chain queried from its root keeps the two
later stages; a single-node chain degrades to the sentinel. -/
theorem C8_cadeia_evolucao_witness :
    evolucaoCampo "bulbasaur"
        (.mk "bulbasaur" [.mk "ivysaur" [.mk "venusaur" []]]) =
      extrair_evolucoes "bulbasaur"
        (.mk "bulbasaur" [.mk "ivysaur" [.mk "venusaur" []]]) ∧
    evolucaoCampo "caterpie" (.mk "caterpie" []) = ["Não evolui"] := by
  constructor
  · exact (C8_cadeia_evolucao "bulbasaur"
      (.mk "bulbasaur" [.mk "ivysaur" [.mk "venusaur" []]])).2.2 (by decide)
  · exact (C8_cadeia_evolucao "caterpie" (.mk "caterpie" [])).2.1 (by decide)

/-! ## Claim C4: error terminations leave the state unchanged -/

theorem buscaLoop_none (env : String → ApiEnv) (cache : List CachePoke)
    (l : List String) (h : ∀ n ∈ l, resolver env cache n = none) :
    buscaLoop env cache l = none := by
  induction l with
  | nil => rfl
  | cons n ns ih =>
    unfold buscaLoop
    rw [h n (List.mem_cons_self n ns)]
    exact ih fun m hm => h m (List.mem_cons_of_mem n hm)

/-- C4: on either error termination of `responder` — no candidate at all,
or no candidate resolving in any source — the reply is the documented
message and the returned memory (history and `ultimo_pokemon`) is exactly
the input state. -/
theorem C4_estado_inalterado (env : String → ApiEnv)
    (cache : List CachePoke) (confirmacao : String) (st : Memoria)
    (pergunta : String) :
    (candidatos cache st confirmacao pergunta = [] →
      responder env cache confirmacao st pergunta =
        .ok (msgSemPokemon, st)) ∧
    (candidatos cache st confirmacao pergunta ≠ [] →
      (∀ n ∈ candidatos cache st confirmacao pergunta,
        resolver env cache n = none) →
      responder env cache confirmacao st pergunta =
        .ok (msgSemDados (candidatos cache st confirmacao pergunta), st)) := by
  constructor
  · intro h
    unfold responder
    rw [if_pos (by rw [h]; rfl)]
  · intro hne hall
    unfold responder
    rw [if_neg (by
      rw [List.isEmpty_iff]
      exact hne)]
    rw [buscaLoop_none env cache _ hall]

/-- C4 witness: an unrecognisable question over empty memory, and a
memory-recalled name absent from every source. -/
theorem C4_estado_inalterado_witness :
    responder envFora cacheExemplo "" ⟨[], none⟩ "ola" =
      .ok (msgSemPokemon, ⟨[], none⟩) ∧
    responder envFora [] "" ⟨[], some "Mew"⟩ "ola" =
      .ok (msgSemDados (candidatos [] ⟨[], some "Mew"⟩ "" "ola"),
        ⟨[], some "Mew"⟩) := by
  constructor
  · exact (C4_estado_inalterado envFora cacheExemplo "" ⟨[], none⟩
      "ola").1 (by decide)
  · exact (C4_estado_inalterado envFora [] "" ⟨[], some "Mew"⟩ "ola").2
      (by decide) (by decide)

/-! ## Claim C1: the secondary fetches are not independently best-effort -/

set_option maxRecDepth 8000 in
/-- C1 counterexample: a resolution whose remote primary fetch succeeds
(status 200) but whose species fetch returns 404 yields `None` — the
entire remote resolution is abandoned (the `evolucao` local is only bound
in the 200 branch, so the `return` raises and the broad `except` returns
`None`), instead of producing a record carrying the documented
sentinels. -/
theorem C1_contraexemplo :
    envSpecies404.poke = .resp 200 (.ok pokeDataExemplo) ∧
    buscar_na_pokeapi envSpecies404 [] "pikachu" = none := ⟨rfl, rfl⟩

/-- C1 amended: on remote primary success the secondary fetches are *not*
independently best-effort: (i) a non-200 species response abandons the
whole remote resolution (`None`); (ii) a species fetch that raises
abandons it; (iii) an evolution-chain fetch that raises abandons it;
(iv) only under a *successful* species fetch does absent evolution-chain
data degrade to the `["Não evolui"]` sentinel, with the description taken
from the English flavor text (or its own "Descrição não encontrada."
sentinel). -/
theorem C1_amended_melhor_esforco (pd : PokeData)
    (cache : List CachePoke) (nome : String) (st : Nat)
    (sb : Except Unit SpeciesData) (cf : HttpResult (Option ChainData))
    (entries : List FlavorEntry) :
    (st ≠ 200 →
      buscar_na_pokeapi ⟨.resp 200 (.ok pd), .resp st sb, cf⟩ cache nome =
        none) ∧
    buscar_na_pokeapi ⟨.resp 200 (.ok pd), .exn, cf⟩ cache nome = none ∧
    buscar_na_pokeapi
        ⟨.resp 200 (.ok pd), .resp 200 (.ok ⟨some entries, true⟩), .exn⟩
        cache nome = none ∧
    ∃ r, buscar_na_pokeapi
        ⟨.resp 200 (.ok pd), .resp 200 (.ok ⟨some entries, false⟩), cf⟩
        cache nome = some r ∧
      r.evolucao = ["Não evolui"] ∧
      r.descricao =
        (match entries.find? (fun e => e.language == "en") with
         | some entry => replaceNl entry.flavor_text
         | none => "Descrição não encontrada.") := by
  refine ⟨?_, rfl, rfl, ⟨_, rfl, rfl, rfl⟩⟩
  intro hst
  unfold buscar_na_pokeapi buscarTry
  dsimp only
  rw [if_neg hst]
  rfl

set_option maxRecDepth 8000 in
/-- C1 amended witness: concrete instances of every conjunct. -/
theorem C1_amended_melhor_esforco_witness :
    buscar_na_pokeapi
        ⟨.resp 200 (.ok pokeDataExemplo), .resp 404 (.ok ⟨none, false⟩),
          .exn⟩ [] "pikachu" = none ∧
    buscar_na_pokeapi ⟨.resp 200 (.ok pokeDataExemplo), .exn, .exn⟩ []
        "pikachu" = none ∧
    buscar_na_pokeapi
        ⟨.resp 200 (.ok pokeDataExemplo),
          .resp 200 (.ok ⟨some [⟨"A mouse.", "en"⟩], true⟩), .exn⟩ []
        "pikachu" = none ∧
    ∃ r, buscar_na_pokeapi
        ⟨.resp 200 (.ok pokeDataExemplo),
          .resp 200 (.ok ⟨some [⟨"A mouse.", "en"⟩], false⟩), .exn⟩ []
        "pikachu" = some r ∧
      r.evolucao = ["Não evolui"] ∧
      r.descricao =
        (match ([⟨"A mouse.", "en"⟩] :
            List FlavorEntry).find? (fun e => e.language == "en") with
         | some entry => replaceNl entry.flavor_text
         | none => "Descrição não encontrada.") := by
  obtain ⟨h1, h2, h3, h4⟩ :=
    C1_amended_melhor_esforco pokeDataExemplo [] "pikachu" 404
      (.ok ⟨none, false⟩) .exn [⟨"A mouse.", "en"⟩]
  exact ⟨h1 (by decide), h2, h3, h4⟩

/-! ## Claim C2: presence of the six canonical stat keys -/

set_option maxRecDepth 8000 in
/-- C2 counterexample: a remote resolution whose primary response carries
an empty `stats` array returns a record whose stats dict has *no* keys at
all — the six canonical keys are not always present. -/
theorem C2_contraexemplo :
    (buscar_na_pokeapi envStatsVazios [] "pikachu").isSome = true ∧
    (buscar_na_pokeapi envStatsVazios [] "pikachu").map Registro.stats =
      some [] := ⟨rfl, rfl⟩

/-- C2 amended: records built from the local cache always carry exactly
the six canonical stat keys (values possibly `None`); records built from
the remote source carry exactly the keys named in the API response's
`stats` array, which may omit any canonical key. -/
theorem C2_chaves_stats (cache : List CachePoke) (nome : String)
    (r : Registro) (pd : PokeData) (sf : HttpResult SpeciesData)
    (cf : HttpResult (Option ChainData)) :
    (buscar_no_json cache nome = some r →
      r.stats.map Prod.fst =
        ["hp", "attack", "defense", "special-attack", "special-defense",
         "speed"]) ∧
    (buscar_na_pokeapi ⟨.resp 200 (.ok pd), sf, cf⟩ cache nome = some r →
      r.stats = pd.stats.map fun s => (s.stat_name, some s.base_stat)) := by
  constructor
  · intro h
    unfold buscar_no_json at h
    dsimp only at h
    cases hf : cache.find?
        (fun p => pyLower p.nome ==
          corrigir_nome_pokemon cache (limpar_nome nome)) with
    | none =>
      rw [hf] at h
      exact Option.noConfusion h
    | some p =>
      rw [hf] at h
      injection h with h2
      subst h2
      rfl
  · intro h
    cases sf with
    | exn =>
      exact Option.noConfusion
        (show (Option.none : Option Registro) = some r from h)
    | resp st sb =>
      by_cases hst : st = 200
      · subst hst
        cases sb with
        | error e =>
          exact Option.noConfusion
            (show (Option.none : Option Registro) = some r from h)
        | ok sd =>
          obtain ⟨fte, ecp⟩ := sd
          cases fte with
          | none =>
            exact Option.noConfusion
              (show (Option.none : Option Registro) = some r from h)
          | some entries =>
            cases ecp with
            | false =>
              injection h with h2
              subst h2
              rfl
            | true =>
              cases cf with
              | exn =>
                exact Option.noConfusion
                  (show (Option.none : Option Registro) = some r from h)
              | resp cst cbody =>
                cases cbody with
                | error e =>
                  exact Option.noConfusion
                    (show (Option.none : Option Registro) = some r from h)
                | ok chain_data =>
                  cases chain_data with
                  | none =>
                    injection h with h2
                    subst h2
                    rfl
                  | some cd =>
                    cases hcd : cd.chain with
                    | none =>
                      rw [show cd = ⟨cd.chain⟩ from rfl, hcd] at h
                      exact Option.noConfusion
                        (show (Option.none : Option Registro) = some r
                          from h)
                    | some root =>
                      rw [show cd = ⟨cd.chain⟩ from rfl, hcd] at h
                      injection h with h2
                      subst h2
                      rfl
      · unfold buscar_na_pokeapi buscarTry at h
        dsimp only at h
        rw [if_neg hst] at h
        exact Option.noConfusion
          (show (Option.none : Option Registro) = some r from h)

set_option maxRecDepth 8000 in
/-- C2 amended witness: a cache hit carries the six keys; a remote record
carries exactly the response's keys. -/
theorem C2_chaves_stats_witness :
    (registroDoCache pikachuCache).stats.map Prod.fst =
      ["hp", "attack", "defense", "special-attack", "special-defense",
       "speed"] ∧
    ∃ r, buscar_na_pokeapi
        ⟨.resp 200 (.ok pokeDataExemplo),
          .resp 200 (.ok ⟨some [], false⟩), .exn⟩ [] "pikachu" = some r ∧
      r.stats = pokeDataExemplo.stats.map
        fun s => (s.stat_name, some s.base_stat) := by
  constructor
  · exact (C2_chaves_stats cacheExemplo "Pikachu"
      (registroDoCache pikachuCache) pokeDataExemplo .exn .exn).1
      (by rfl)
  · refine ⟨_, rfl, ?_⟩
    exact (C2_chaves_stats [] "pikachu" _ pokeDataExemplo
      (.resp 200 (.ok ⟨some [], false⟩)) .exn).2 rfl

/-! ## Claim C3: the Compare intent -/

theorem gerar_comparar (env : String → ApiEnv) (cache : List CachePoke)
    (memoria : Memoria) (dados : Registro) :
    gerar_resposta env cache memoria "comparar" dados =
      (match findallCap (contexto memoria).data with
       | poke1 :: poke2 :: _ =>
         match resolver env cache poke1, resolver env cache poke2 with
         | some d1, some d2 => comparar_registros poke1 poke2 d1 d2
         | _, _ => pure fraseDica
       | _ => pure fraseDica) := by
  unfold gerar_resposta
  rw [if_neg (by decide), if_neg (by decide), if_neg (by decide),
    if_neg (by decide), if_neg (by decide), if_neg (by decide),
    if_neg (by decide), if_pos rfl]

/-- C3 amended: the Compare synthesizer takes the first two
capitalized-word matches from the memory text — *not* the first two
distinct ones — resolving each; it returns the static usage hint when
fewer than two matches are found or when either resolution fails. -/
theorem C3_amended_comparar (env : String → ApiEnv)
    (cache : List CachePoke) (memoria : Memoria) (dados : Registro)
    (p1 p2 : String) (rest : List String) :
    ((findallCap (contexto memoria).data).length < 2 →
      gerar_resposta env cache memoria "comparar" dados = .ok fraseDica) ∧
    (findallCap (contexto memoria).data = p1 :: p2 :: rest →
      (resolver env cache p1 = none ∨ resolver env cache p2 = none) →
      gerar_resposta env cache memoria "comparar" dados = .ok fraseDica) ∧
    (∀ d1 d2, findallCap (contexto memoria).data = p1 :: p2 :: rest →
      resolver env cache p1 = some d1 → resolver env cache p2 = some d2 →
      gerar_resposta env cache memoria "comparar" dados =
        comparar_registros p1 p2 d1 d2) := by
  refine ⟨?_, ?_, ?_⟩
  · intro hlen
    rw [gerar_comparar]
    cases hl : findallCap (contexto memoria).data with
    | nil => rfl
    | cons a t =>
      cases t with
      | nil => rfl
      | cons b t2 =>
        rw [hl] at hlen
        simp at hlen
        omega
  · intro hfind hor
    rw [gerar_comparar, hfind]
    dsimp only
    rcases hor with h1 | h2
    · rw [h1]
      rfl
    · cases hr1 : resolver env cache p1 with
      | none => rfl
      | some d1 =>
        rw [h2]
        rfl
  · intro d1 d2 hfind hd1 hd2
    rw [gerar_comparar, hfind]
    dsimp only
    rw [hd1, hd2]

set_option maxRecDepth 16000 in
/-- C3 counterexample: a memory whose context mentions only `Pikachu`
(twice) has a single *distinct* minable name, yet the synthesizer compares
`Pikachu` with itself and emits a comparison — not the usage hint. -/
theorem C3_contraexemplo :
    findallCap (contexto memoriaDupla).data = ["Pikachu", "Pikachu"] ∧
    (["Pikachu", "Pikachu"] : List String).dedup = ["Pikachu"] ∧
    gerar_resposta envFora cacheExemplo memoriaDupla "comparar"
        registroDummy =
      .ok ("⚖️ Comparação entre Pikachu e Pikachu:\n" ++
        "🔥 Ataque: 55 vs 55\n🛡️ Defesa: 40 vs 40\n❤️ HP: 35 vs 35\n" ++
        "⚡ Velocidade: 90 vs 90\n\n🔍 Análise:\nEmpate em attack (55)\n" ++
        "Empate em defense (40)\nEmpate em hp (35)") ∧
    ("⚖️ Comparação entre Pikachu e Pikachu:\n" ++
        "🔥 Ataque: 55 vs 55\n🛡️ Defesa: 40 vs 40\n❤️ HP: 35 vs 35\n" ++
        "⚡ Velocidade: 90 vs 90\n\n🔍 Análise:\nEmpate em attack (55)\n" ++
        "Empate em defense (40)\nEmpate em hp (35)") ≠ fraseDica := by
  refine ⟨by decide, by decide, ?_, by decide⟩
  rfl

set_option maxRecDepth 16000 in
/-- C3 amended witness: the duplicated-name memory compares the name with
itself; an empty memory yields the hint. -/
theorem C3_amended_comparar_witness :
    gerar_resposta envFora cacheExemplo ⟨[], none⟩ "comparar"
        registroDummy = .ok fraseDica ∧
    gerar_resposta envFora cacheExemplo memoriaDupla "comparar"
        registroDummy =
      comparar_registros "Pikachu" "Pikachu"
        (registroDoCache pikachuCache) (registroDoCache pikachuCache) := by
  constructor
  · exact (C3_amended_comparar envFora cacheExemplo ⟨[], none⟩
      registroDummy "" "" []).1 (by decide)
  · exact (C3_amended_comparar envFora cacheExemplo memoriaDupla
      registroDummy "Pikachu" "Pikachu" []).2.2
      (registroDoCache pikachuCache) (registroDoCache pikachuCache)
      (by decide) (by rfl) (by rfl)

end PokeChat
